import Mathlib

/-
Verification development for the `cards` repository: a turn-based multiplayer
card-game engine.  The Game aggregate (game.ts) and the Burn/EndOfGame phase
handlers are translated directly from the source; the leaf classes
(card.ts, card-stack.ts, deck.ts, card-hand.ts, player.ts) and the remaining
phase handlers are absent from the snapshot and are modelled from the spec,
as marked on each definition.

Conventions of the embedding:
  * TS exceptions do not roll back earlier field writes, so every fallible
    operation returns `Except (String × Game) Game`: an `error (msg, g)`
    carries the state as it stands at the moment of the throw.
  * `null`/`undefined` identities are `Option Nat` (`none` = absent).
  * The JS `Map<number, Player>` from user id to seat object is represented
    as an association list from user id to seat index, which preserves the
    aliasing of seat objects (two users mapped to the same seat).
  * `Math.random`-driven choices (deck shuffle, first-turn selection) read
    from an injected stream of naturals `Game.rand`, per the spec's design
    note on seedable randomness.
-/

namespace Cards

/-- Modelled from the spec: card ability tags (card.ts is missing from the
snapshot).  The spec lists NONE, EXCHANGE_HAND_WITH_OTHER, SHOW_ONE_HAND_CARD
and SHOW_ONE_OTHER_HAND_CARD; the TS declaration is a numeric enum, and a
numeric-enum field can carry an out-of-range number at runtime (which is what
the `default` branch of `useAbilityAction` guards against), so ability tags
are carried as plain `Nat` codes. -/
def NO_ABILITY : Nat := 0

def EXCHANGE_HAND_WITH_OTHER_ABILITY : Nat := 1

def SHOW_ONE_HAND_CARD_ABILITY : Nat := 2

def SHOW_ONE_OTHER_HAND_CARD_ABILITY : Nat := 3

/-- Modelled from the spec: a card has an opaque id, a suit, a rank, an
ability tag and a mutable `used` flag (card.ts is missing from the
snapshot). -/
structure Card where
  id : Nat
  suit : Nat
  rank : Nat
  ability : Nat
  used : Bool
deriving DecidableEq, Repr

/-- Card.equalsRank: rank comparison used for burn legality. -/
def Card.equalsRank (a b : Card) : Bool := a.rank == b.rank

/-- Card.markAsUsed: sets the mutable `used` flag. -/
def Card.markAsUsed (c : Card) : Card := { c with used := true }

/-- Modelled from the spec: a seat owns a hand of cards (player.ts is missing
from the snapshot).  The binding of a seat to a user identity lives in the
Game's user-to-seat map, not in the seat itself — game.ts's
`joinAsPlayerAction` records the binding only in `userPlayer`. -/
structure Player where
  hand : List Card
deriving DecidableEq, Repr

/-- Player.addCardToHand (card-hand.ts add is missing; hand order carries no
significance per the spec, new cards are consed on). -/
def Player.addCardToHand (p : Player) (c : Card) : Player :=
  { p with hand := c :: p.hand }

/-- Modelled from the spec: CardHand.getCard looks a card up by its id and
yields nothing when the id is absent (card-hand.ts is missing). -/
def Player.getCard (p : Player) (cid : Option Nat) : Option Card :=
  match cid with
  | none => none
  | some i => p.hand.find? (fun c => c.id == i)

/-- The game phases.  One constructor per TS phase class (most phase files
are missing from the snapshot; the set of phases is the one the spec's phase
graph lists and game.ts imports). -/
inductive GState where
  | BeginOfGame
  | RoundStart
  | PickBurn
  | PilePicked
  | BurnedPicked
  | Burn
  | EndRound
  | EndOfGame
  | ExchangeHandWithOther
  | ShowOneHandCard
  | ShowOneOtherHandCard
deriving DecidableEq, Repr

/-- The Action enum of game.ts (22 codes). -/
inductive Action where
  | CREATE_GAME
  | START_GAME
  | PREPARE_ROUND
  | START_ROUND
  | JOIN_AS_PLAYER
  | JOIN_AS_SPECTATOR
  | DISTRIBUTE_CARD
  | SELECT_FIRST_TURN
  | PICK_CARD_FROM_PILE
  | PICK_CARD_FROM_BURNED
  | BURN_ONE_HAND_CARD
  | BURN_CARD
  | THROW_CARD
  | USE_ABILITY
  | EXCHANGE_PICK_WITH_HAND
  | EXCHANGE_HAND_WITH_OTHER
  | SHOW_ONE_HAND_CARD
  | SHOW_ONE_OTHER_HAND_CARD
  | NEXT_TURN
  | PASS
  | RESTART
  | LEAVE
  | NO_ACTION
deriving DecidableEq, Repr

/-- UserActionPayload (state.ts): the optional fields an action may carry. -/
structure UserActionPayload where
  userId : Option Nat
  playerId : Option Nat
  cardId : Option Nat
  otherPlayerId : Option Nat
  otherCardId : Option Nat
deriving DecidableEq, Repr

/-- The Game aggregate of game.ts.  `userPlayer` maps a user id to the index
of the seat object the TS Map stores; `rand` is the injected randomness
stream (spec design note). -/
structure Game where
  players : List Player
  deck : List Card
  burnedCards : List Card
  pileOfCards : List Card
  passedBy : Option Nat
  turn : Nat
  state : GState
  maxNumberOfPlayers : Nat
  isGameStarted : Bool
  pickedCard : Option Card
  leader : Option Nat
  userPlayer : List (Nat × Nat)
  rand : List Nat
deriving DecidableEq, Repr

/-- Result of a fallible Game operation: `error (msg, g)` is a TS throw with
message `msg` leaving the aggregate in state `g` (mutations made before the
throw persist). -/
abbrev GRes := Except (String × Game) Game

/-- A TS `throw` observed from outside: the message and the state at the
moment of the throw. -/
def throwG (m : String) (g : Game) : GRes := Except.error (m, g)

/-- JS Map lookup on the user-to-seat association list. -/
def mapGet (m : List (Nat × Nat)) (k : Nat) : Option Nat :=
  match m with
  | [] => none
  | (k', v) :: t => if k' == k then some v else mapGet t k

/-- JS Map.set: update the existing key or append a new entry. -/
def mapSet (m : List (Nat × Nat)) (k v : Nat) : List (Nat × Nat) :=
  match m with
  | [] => [(k, v)]
  | (k', v') :: t => if k' == k then (k, v) :: t else (k', v') :: mapSet t k v

/-- Membership test mirroring the TS `array.some(isIn)` checks of the
validator. -/
def actionIn (a : Action) : List Action → Bool
  | [] => false
  | b :: t => a == b || actionIn a t

def LEADER_BASED_ACTIONS : List Action := [.START_GAME, .RESTART]

def USER_BASED_ACTION : List Action := [.JOIN_AS_PLAYER, .JOIN_AS_SPECTATOR, .LEAVE]

def USER_TURN_BASED_ACTION : List Action :=
  [.BURN_CARD, .EXCHANGE_PICK_WITH_HAND, .PASS, .USE_ABILITY, .THROW_CARD,
   .PICK_CARD_FROM_BURNED, .PICK_CARD_FROM_PILE]

def INTERNAL_BASED_ACTION : List Action :=
  [.START_GAME, .START_ROUND, .DISTRIBUTE_CARD, .SELECT_FIRST_TURN, .NEXT_TURN]

def DEFAULT_NUMBER_OF_CARDS_PER_HAND : Nat := 4

/-- Game.numberOfPlayers: size of the user-to-seat map. -/
def Game.numberOfPlayers (g : Game) : Nat := g.userPlayer.length

/-- Game.isLeaderUser: TS `this.leader === userId` with `leader` initialised
to null and `userId` read from an optional payload; a strict comparison
succeeds only when both are the same present number. -/
def Game.isLeaderUser (g : Game) (uid : Option Nat) : Bool :=
  match g.leader, uid with
  | some l, some u => l == u
  | _, _ => false

/-- Game.isUserTurn: TS `this.players[this.turn].isOwner(userId)`.
Player.isOwner is in the missing player.ts; modelled from the spec's
authorization rule, the actor must be the seat at the current turn index,
i.e. the seat the user-to-seat map binds the actor to is the turn seat. -/
def Game.isUserTurn (g : Game) (uid : Option Nat) : Bool :=
  match uid with
  | none => false
  | some u => mapGet g.userPlayer u == some g.turn

/-- Game.isJoinedAsPlayer: `this.userPlayer.has(userId)`. -/
def Game.isJoinedAsPlayer (g : Game) (uid : Option Nat) : Bool :=
  match uid with
  | none => false
  | some u => (mapGet g.userPlayer u).isSome

/-- Game.isValidPlayer: `0 <= playerId && playerId < this.players.length`
(the lower bound is automatic for `Nat`; an absent id fails the check as in
TS). -/
def Game.isValidPlayer (g : Game) (pid : Option Nat) : Bool :=
  match pid with
  | none => false
  | some i => i < g.players.length

/-- Game.isFull: seated-user count equals the configured maximum. -/
def Game.isFull (g : Game) : Bool := g.numberOfPlayers == g.maxNumberOfPlayers

/-- The validator of game.ts: buckets checked in fixed precedence order
(leader-based, then user-based, then turn-based, then internal-only). -/
def validateUsingActionBased (g : Game) (a : Action) (uid : Option Nat) : Bool :=
  if actionIn a LEADER_BASED_ACTIONS then g.isLeaderUser uid
  else if actionIn a USER_BASED_ACTION then uid.isSome
  else if actionIn a USER_TURN_BASED_ACTION then g.isUserTurn uid
  else uid.isNone && actionIn a INTERNAL_BASED_ACTION

/-- Game.nextTurn: advance the turn index modulo the seat count. -/
def Game.nextTurn (g : Game) : Game :=
  { g with turn := (g.turn + 1) % g.players.length }

/-- Game.endOfTurn: clear the in-flight picked card. -/
def Game.endOfTurn (g : Game) : Game := { g with pickedCard := none }

/-- Modelled from the spec: remove the element at index `i` from a list,
yielding it together with the remainder (`d` is a default for the impossible
out-of-range case).  Helper for the shuffle. -/
def takeOutIdx (d : Card) : Nat → List Card → Card × List Card
  | _, [] => (d, [])
  | 0, c :: t => (c, t)
  | i + 1, c :: t =>
    let r := takeOutIdx d i t
    (r.1, c :: r.2)

/-- Modelled from the spec: Deck.shuffle (deck.ts is missing) is a fair
shuffle; it is embedded as a Fisher-Yates walk consuming one natural of the
injected randomness stream per card, so that any permutation is reachable by
a suitable stream.  `fuel` is the list length, making the recursion
structural. -/
def shuffleGo : Nat → List Nat → List Card → List Card
  | 0, _, l => l
  | _, _, [] => []
  | n + 1, rs, c :: t =>
    let r := takeOutIdx c (rs.headD 0 % (c :: t).length) (c :: t)
    r.1 :: shuffleGo n rs.tail r.2

def shuffleWith (rs : List Nat) (l : List Card) : List Card :=
  shuffleGo l.length rs l

/-- Game-level shuffle: permute the deck, consuming one random per card. -/
def Game.shuffleDeck (g : Game) : Game :=
  { g with deck := shuffleWith (g.rand.take g.deck.length) g.deck,
           rand := g.rand.drop g.deck.length }

/-- Game.selectFirstTurnAction: `Math.floor(Math.random() * players.length)`,
reading the injected stream. -/
def Game.selectFirstTurnAction (g : Game) : Game :=
  { g with turn := g.rand.headD 0 % g.players.length, rand := g.rand.tail }

/-- The dealing loop body of distributeCardsAction: pop `n` cards off the
deck into one seat's hand.  The Bool records whether the deck sufficed
(Modelled from the spec: Deck.pop on an empty deck fails; the cards dealt
so far stay dealt). -/
def dealToPlayer : Nat → Player → List Card → Player × List Card × Bool
  | 0, p, d => (p, d, true)
  | _ + 1, p, [] => (p, [], false)
  | n + 1, p, c :: rest => dealToPlayer n (p.addCardToHand c) rest

/-- The seat loop of distributeCardsAction: deal the fixed hand size to every
seat in seat order. -/
def dealAll : List Player → List Card → List Player × List Card × Bool
  | [], d => ([], d, true)
  | p :: ps, d =>
    let r := dealToPlayer DEFAULT_NUMBER_OF_CARDS_PER_HAND p d
    let r' := dealAll ps r.2.1
    (r.1 :: r'.1, r'.2.1, r.2.2 && r'.2.2)

/-- Game.distributeCardsAction: deal four cards to every seat in seat order,
then move every remaining deck card onto the draw pile (each `put` pushes the
popped deck head, so the pile receives the remainder reversed). -/
def Game.distributeCardsAction (g : Game) : GRes :=
  let r := dealAll g.players g.deck
  if r.2.2 then
    Except.ok { g with players := r.1, deck := [],
                       pileOfCards := r.2.1.reverse ++ g.pileOfCards }
  else throwG "Deck is empty" { g with players := r.1, deck := r.2.1 }

/-- Game.showTwoHandCardsAction: `emitTwoCards` on every seat.  Modelled from
the spec: the emit is an outbound notification with no effect on game
state. -/
def Game.showTwoHandCardsAction (g : Game) : Game := g

/-- Game.startRoundAction: distribute cards, emit the two-card reveal, and
move to PickBurn (`setState(new PickBurn)`; PickBurn is not RoundStart so the
setState hook does not re-enter the action dispatcher). -/
def Game.startRoundAction (g : Game) : GRes :=
  match g.distributeCardsAction with
  | Except.error e => Except.error e
  | Except.ok g1 => Except.ok { g1.showTwoHandCardsAction with state := .PickBurn }

/-- Game.startGameAction: reject a second start; otherwise set the started
flag, shuffle, select the first turn and `setState(new RoundStart)`.
Setting RoundStart re-enters `action(Action.START_ROUND)` (game.ts setState),
whose validation (internal bucket, no user id) always passes and whose
RoundStart handler runs startRoundAction; that re-entry is inlined here. -/
def Game.startGameAction (g : Game) : GRes :=
  if g.isGameStarted then throwG "Game already started" g
  else
    let g1 := { g with isGameStarted := true }
    let g2 := g1.shuffleDeck
    let g3 := g2.selectFirstTurnAction
    let g4 := { g3 with state := .RoundStart }
    if validateUsingActionBased g4 .START_ROUND none then g4.startRoundAction
    else throwG "InvalidAction" g4

/-- Game.pickCardFromPileAction: `this.pickedCard = this.pileOfCards.pick()`
then PilePicked.  Modelled from the spec: CardStack.pick (card-stack.ts is
missing) removes and returns the top card and fails on an empty stack, before
the pickedCard assignment happens. -/
def Game.pickCardFromPileAction (g : Game) : GRes :=
  match g.pileOfCards with
  | [] => throwG "Cannot pick from empty stack" g
  | c :: rest =>
    Except.ok { g with pickedCard := some c, pileOfCards := rest, state := .PilePicked }

/-- Game.pickCardFromBurnedAction: same as the pile pick, against the burn
pile, moving to BurnedPicked. -/
def Game.pickCardFromBurnedAction (g : Game) : GRes :=
  match g.burnedCards with
  | [] => throwG "Cannot pick from empty stack" g
  | c :: rest =>
    Except.ok { g with pickedCard := some c, burnedCards := rest, state := .BurnedPicked }

/-- Game.burnOneHandCardAction: require a non-empty burn pile; fetch the
acting player and the named hand card (a missing player or card is a TS
member access on undefined, i.e. a throw before any mutation); on equal rank
move the hand card onto the burn pile, otherwise move the burn-pile top into
the hand; either way finish in EndRound. -/
def Game.burnOneHandCardAction (g : Game) (uid : Option Nat) (cid : Option Nat) : GRes :=
  match g.burnedCards with
  | [] => throwG "Burned cards stack is empty" g
  | top :: rest =>
    match uid.bind (mapGet g.userPlayer) with
    | none => throwG "TypeError" g
    | some seat =>
      match g.players.get? seat with
      | none => throwG "TypeError" g
      | some player =>
        match player.getCard cid with
        | none => throwG "TypeError" g
        | some card =>
          if card.equalsRank top then
            Except.ok { g with
              players := g.players.set seat { player with hand := player.hand.erase card },
              burnedCards := card :: top :: rest,
              state := .EndRound }
          else
            Except.ok { g with
              players := g.players.set seat { player with hand := top :: player.hand },
              burnedCards := rest,
              state := .EndRound }

/-- Game.useAbilityAction: read the picked card's ability (a null picked card
is a TS member access on null, i.e. a throw), mark the card used, then
dispatch on the ability; an unrecognized tag throws only after the used flag
has already been set. -/
def Game.useAbilityAction (g : Game) : GRes :=
  match g.pickedCard with
  | none => throwG "TypeError" g
  | some c =>
    let g1 := { g with pickedCard := some c.markAsUsed }
    if c.ability == EXCHANGE_HAND_WITH_OTHER_ABILITY then
      Except.ok { g1 with state := .ExchangeHandWithOther }
    else if c.ability == SHOW_ONE_HAND_CARD_ABILITY then
      Except.ok { g1 with state := .ShowOneHandCard }
    else if c.ability == SHOW_ONE_OTHER_HAND_CARD_ABILITY then
      Except.ok { g1 with state := .ShowOneOtherHandCard }
    else if c.ability == NO_ABILITY then
      Except.ok { g1 with state := .Burn }
    else throwG "Unknown ability" g1

/-- Game.exchangePickWithHandAction: fetch the acting player (undefined
player makes `player.getCard` a throw), look the named card up, swap two
LOCAL bindings — no field of the game is written — and move to Burn. -/
def Game.exchangePickWithHandAction (g : Game) (uid : Option Nat) (_cid : Option Nat) : GRes :=
  match uid.bind (mapGet g.userPlayer) with
  | none => throwG "TypeError" g
  | some _ => Except.ok { g with state := .Burn }

/-- Game.exchangeHandWithOther: bounds-check the other seat, reject a
self-exchange (the acting player's seat object and `players[otherPlayerId]`
are the same object exactly when the map binds the actor to that index), swap
two LOCAL bindings — no field of the game is written — and move to Burn.
An unbound actor is a `player.getCard` throw on undefined. -/
def Game.exchangeHandWithOther (g : Game) (uid : Option Nat) (_cid : Option Nat)
    (opid : Option Nat) (_ocid : Option Nat) : GRes :=
  if g.isValidPlayer opid then
    match uid.bind (mapGet g.userPlayer), opid with
    | none, _ => throwG "TypeError" g
    | _, none => throwG "TypeError" g
    | some seat, some j =>
      if seat == j then throwG "Changing card with your self is not allowed" g
      else Except.ok { g with state := .Burn }
  else throwG "Pick valid card your turn." g

/-- Game.showOneHandCardAction: fetch the acting player's named card (an
unbound actor is a throw on undefined), emit it, and move to Burn; no game
field other than the phase is written. -/
def Game.showOneHandCardAction (g : Game) (uid : Option Nat) (_cid : Option Nat) : GRes :=
  match uid.bind (mapGet g.userPlayer) with
  | none => throwG "TypeError" g
  | some _ => Except.ok { g with state := .Burn }

/-- Game.showOneOtherHandCardAction: bounds-check the other seat, read its
named card, emit it, and move to Burn. -/
def Game.showOneOtherHandCardAction (g : Game) (_uid : Option Nat)
    (opid : Option Nat) (_ocid : Option Nat) : GRes :=
  if g.isValidPlayer opid then Except.ok { g with state := .Burn }
  else throwG "Pick valid card" g

/-- Game.passAction: record the seat whose turn it is as the passer. -/
def Game.passAction (g : Game) : GRes :=
  Except.ok { g with passedBy := some g.turn }

/-- Game.joinAsPlayerAction: reject an already-seated actor, an out-of-range
seat index, and a full game — in that order, before any mutation; a first
join (empty user map) records the actor as leader; finally bind actor to
seat.  Note game.ts performs no occupancy check on the target seat. -/
def Game.joinAsPlayerAction (g : Game) (uid : Option Nat) (pid : Option Nat) : GRes :=
  if g.isJoinedAsPlayer uid then throwG "Player already joined" g
  else if !(g.isValidPlayer pid) then throwG "Invalid position or already taken" g
  else if g.isFull then throwG "The game is already full join another game" g
  else
    match uid, pid with
    | some u, some i =>
      let g1 := if g.numberOfPlayers == 0 then { g with leader := some u } else g
      Except.ok { g1 with userPlayer := mapSet g1.userPlayer u i }
    | _, _ => throwG "TypeError" g

/-- The per-phase dispatch (`state.action(this, action, payload)`).  The Burn
handler is translated from src burn.ts (its `context.burnAction()` is the
burn step, modelled from the spec as `burnOneHandCardAction` on the payload's
user and card, being the only burn logic the aggregate has); the EndOfGame
handler is translated from src end-of-game.ts (its accepted END_OF_GAME code
does not exist in this Action enum, so it rejects everything); the remaining
phase files are missing and are modelled from the spec's phase graph, each
accepting exactly the listed action(s).  The EndRound next-turn cycle
(Modelled from the spec) advances the turn, clears the picked card
(endOfTurn) and returns to PickBurn. -/
def stateAction (g : Game) (a : Action) (p : UserActionPayload) : GRes :=
  match g.state with
  | .BeginOfGame =>
    match a with
    | .START_GAME => g.startGameAction
    | _ => throwG "Action is not allowed in current state" g
  | .RoundStart =>
    match a with
    | .START_ROUND => g.startRoundAction
    | _ => throwG "Action is not allowed in current state" g
  | .PickBurn =>
    match a with
    | .PICK_CARD_FROM_PILE => g.pickCardFromPileAction
    | .PICK_CARD_FROM_BURNED => g.pickCardFromBurnedAction
    | _ => throwG "Action is not allowed in current state" g
  | .PilePicked =>
    match a with
    | .USE_ABILITY => g.useAbilityAction
    | _ => throwG "Action is not allowed in current state" g
  | .BurnedPicked =>
    match a with
    | .USE_ABILITY => g.useAbilityAction
    | _ => throwG "Action is not allowed in current state" g
  | .Burn =>
    match a with
    | .BURN_CARD => g.burnOneHandCardAction p.userId p.cardId
    | _ => throwG "Action is not allowed in current state" g
  | .EndRound =>
    match a with
    | .NEXT_TURN => Except.ok { g.nextTurn.endOfTurn with state := .PickBurn }
    | _ => throwG "Action is not allowed in current state" g
  | .ExchangeHandWithOther =>
    match a with
    | .EXCHANGE_HAND_WITH_OTHER =>
      g.exchangeHandWithOther p.userId p.cardId p.otherPlayerId p.otherCardId
    | _ => throwG "Action is not allowed in current state" g
  | .ShowOneHandCard =>
    match a with
    | .SHOW_ONE_HAND_CARD => g.showOneHandCardAction p.userId p.cardId
    | _ => throwG "Action is not allowed in current state" g
  | .ShowOneOtherHandCard =>
    match a with
    | .SHOW_ONE_OTHER_HAND_CARD =>
      g.showOneOtherHandCardAction p.userId p.otherPlayerId p.otherCardId
    | _ => throwG "Action is not allowed in current state" g
  | .EndOfGame => throwG "Action is not allowed in current state" g

/-- Game.doAction (`action` in game.ts): validate the actor against the
action's authorization bucket, handle JOIN_AS_PLAYER globally, and delegate
everything else — including JOIN_AS_SPECTATOR and LEAVE, whose switch cases
fall through — to the current phase. -/
def Game.doAction (g : Game) (a : Action) (p : UserActionPayload) : GRes :=
  if validateUsingActionBased g a p.userId then
    match a with
    | .JOIN_AS_PLAYER => g.joinAsPlayerAction p.userId p.playerId
    | _ => stateAction g a p
  else throwG "InvalidAction" g

/-- Modelled from the spec: ranks 9, 10 and 11 carry the three card
abilities (card.ts fixes the exact rank-to-ability table; the spec only says
certain cards carry abilities, so one concrete assignment is chosen). -/
def abilityOfRank (r : Nat) : Nat :=
  if r == 9 then SHOW_ONE_HAND_CARD_ABILITY
  else if r == 10 then SHOW_ONE_OTHER_HAND_CARD_ABILITY
  else if r == 11 then EXCHANGE_HAND_WITH_OTHER_ABILITY
  else NO_ABILITY

/-- Modelled from the spec: the configured card set is a standard 52-card
deck (deck.ts is missing; the spec's Scenario A counts draw-pile cards
against a standard deck). -/
def initialDeck : List Card :=
  (List.range 52).map (fun n =>
    { id := n, suit := n / 13, rank := n % 13, ability := abilityOfRank (n % 13), used := false })

/-- The Game constructor: a valid maximum seats the empty seat array, the
full deck, empty piles, no leader, no picked card and the supplied initial
phase BeginOfGame; an invalid maximum throws. -/
def newGame (maxPlayers : Nat) (rand : List Nat) : Option Game :=
  if 3 ≤ maxPlayers ∧ maxPlayers ≤ 8 then
    some { players := List.replicate maxPlayers ⟨[]⟩,
           deck := initialDeck,
           burnedCards := [],
           pileOfCards := [],
           passedBy := none,
           turn := 0,
           state := .BeginOfGame,
           maxNumberOfPlayers := maxPlayers,
           isGameStarted := false,
           pickedCard := none,
           leader := none,
           userPlayer := [],
           rand := rand }
  else none

/-- A freshly created 3-seat game with the all-zeros randomness stream. -/
def fresh3 : Game :=
  { players := List.replicate 3 ⟨[]⟩,
    deck := initialDeck,
    burnedCards := [],
    pileOfCards := [],
    passedBy := none,
    turn := 0,
    state := .BeginOfGame,
    maxNumberOfPlayers := 3,
    isGameStarted := false,
    pickedCard := none,
    leader := none,
    userPlayer := [],
    rand := [] }

/-- Payload with only a user id. -/
def pUser (u : Nat) : UserActionPayload := ⟨some u, none, none, none, none⟩

/-- Payload of a join: user id and seat index. -/
def pJoin (u pid : Nat) : UserActionPayload := ⟨some u, some pid, none, none, none⟩

/-- Payload of a burn: user id and card id. -/
def pCard (u cid : Nat) : UserActionPayload := ⟨some u, none, some cid, none, none⟩

/-- Run a script of doAction calls, stopping at the first throw. -/
def runActions (g : Game) : List (Action × UserActionPayload) → GRes
  | [] => Except.ok g
  | (a, p) :: t =>
    match g.doAction a p with
    | Except.ok g' => runActions g' t
    | e => e

/-- Evaluate a Boolean observation on the final state of a successful run. -/
def resultHolds (r : GRes) (obs : Game → Bool) : Bool :=
  match r with
  | Except.ok g => obs g
  | Except.error _ => false

/-- Total number of cards held by the four containers the conservation claim
enumerates: deck, draw pile, burn pile and all hands. -/
def totalContainerCards (g : Game) : Nat :=
  g.deck.length + g.pileOfCards.length + g.burnedCards.length +
    (g.players.map (fun p => p.hand.length)).sum

/-- Spec-side description of the deal: seat `i` receives the four deck cards
at positions `4*i` to `4*i+3`, consed onto its hand (so they end up reversed
in front of it), in seat order. -/
def dealtSeats (ps : List Player) (d : List Card) : List Player :=
  match ps with
  | [] => []
  | p :: t => ⟨(d.take 4).reverse ++ p.hand⟩ :: dealtSeats t (d.drop 4)

/-- The leader recorded in the state an operation ends in, applied or
thrown. -/
def resLeader : GRes → Option Nat
  | Except.ok g => g.leader
  | Except.error (_, g) => g.leader

lemma dealToPlayer_spec (n : Nat) (p : Player) (d : List Card) (h : n ≤ d.length) :
    dealToPlayer n p d = (⟨(d.take n).reverse ++ p.hand⟩, d.drop n, true) := by
  induction n generalizing p d with
  | zero => simp [dealToPlayer]
  | succ n ih =>
    cases d with
    | nil => simp at h
    | cons c rest =>
      have h' : n ≤ rest.length := by simpa using Nat.le_of_succ_le_succ h
      show dealToPlayer n (p.addCardToHand c) rest = _
      rw [ih (p.addCardToHand c) rest h']
      simp [Player.addCardToHand]

lemma dealAll_spec (ps : List Player) (d : List Card) (h : 4 * ps.length ≤ d.length) :
    dealAll ps d = (dealtSeats ps d, d.drop (4 * ps.length), true) := by
  induction ps generalizing d with
  | nil => simp [dealAll, dealtSeats]
  | cons p t ih =>
    have h4 : 4 ≤ d.length := by
      have : 4 * 1 ≤ 4 * (p :: t).length := by
        have : (1 : Nat) ≤ (p :: t).length := by simp
        exact Nat.mul_le_mul_left 4 this
      omega
    have hdrop : 4 * t.length ≤ (d.drop 4).length := by
      simp only [List.length_drop]
      have := h
      simp only [List.length_cons] at this
      omega
    simp only [dealAll, DEFAULT_NUMBER_OF_CARDS_PER_HAND,
      dealToPlayer_spec 4 p d h4, ih (d.drop 4) hdrop, dealtSeats]
    simp [List.drop_drop, Nat.mul_succ, Nat.add_comm]

lemma dealtSeats_get (ps : List Player) (d : List Card) (i : Nat) (pi : Player)
    (h : ps.get? i = some pi) :
    (dealtSeats ps d).get? i = some ⟨((d.drop (4 * i)).take 4).reverse ++ pi.hand⟩ := by
  induction ps generalizing d i with
  | nil => simp at h
  | cons p t ih =>
    cases i with
    | zero =>
      simp at h
      subst h
      simp [dealtSeats]
    | succ i =>
      simp only [List.get?_cons_succ] at h
      simp only [dealtSeats, List.get?_cons_succ]
      rw [show 4 * (i + 1) = 4 + 4 * i by ring, ← List.drop_drop]
      exact ih (d.drop 4) i h

lemma takeOutIdx_length (dc : Card) (i : Nat) (l : List Card) (h : i < l.length) :
    (takeOutIdx dc i l).2.length + 1 = l.length := by
  induction l generalizing i with
  | nil => simp at h
  | cons c t ih =>
    cases i with
    | zero => simp [takeOutIdx]
    | succ i =>
      have h' : i < t.length := by simpa using Nat.lt_of_succ_lt_succ h
      simp [takeOutIdx, ih i h']

lemma shuffleGo_length (n : Nat) (rs : List Nat) (l : List Card) (h : l.length ≤ n) :
    (shuffleGo n rs l).length = l.length := by
  induction n generalizing rs l with
  | zero => simp [shuffleGo]
  | succ n ih =>
    cases l with
    | nil => simp [shuffleGo]
    | cons c t =>
      have hlt : rs.headD 0 % (c :: t).length < (c :: t).length :=
        Nat.mod_lt _ (by simp)
      have hrest := takeOutIdx_length c (rs.headD 0 % (c :: t).length) (c :: t) hlt
      simp only [List.length_cons] at hrest h ⊢
      simp only [shuffleGo, List.length_cons]
      rw [ih rs.tail _ (by omega)]
      omega

lemma shuffleWith_length (rs : List Nat) (l : List Card) :
    (shuffleWith rs l).length = l.length :=
  shuffleGo_length l.length rs l (Nat.le_refl _)

lemma shuffleDeck_fields (g : Game) :
    g.shuffleDeck.players = g.players ∧ g.shuffleDeck.deck.length = g.deck.length ∧
      g.shuffleDeck.leader = g.leader ∧ g.shuffleDeck.isGameStarted = g.isGameStarted := by
  refine ⟨rfl, ?_, rfl, rfl⟩
  simp [Game.shuffleDeck, shuffleWith_length]

lemma distributeCards_ok (g : Game) (h : 4 * g.players.length ≤ g.deck.length) :
    g.distributeCardsAction = Except.ok
      { g with players := dealtSeats g.players g.deck, deck := [],
               pileOfCards := (g.deck.drop (4 * g.players.length)).reverse ++ g.pileOfCards } := by
  simp [Game.distributeCardsAction, dealAll_spec g.players g.deck h]

lemma startRound_ok (g : Game) (h : 4 * g.players.length ≤ g.deck.length) :
    g.startRoundAction = Except.ok
      { g with players := dealtSeats g.players g.deck, deck := [],
               pileOfCards := (g.deck.drop (4 * g.players.length)).reverse ++ g.pileOfCards,
               state := .PickBurn } := by
  simp [Game.startRoundAction, distributeCards_ok g h, Game.showTwoHandCardsAction]

lemma pickPile_err (g : Game) (m : String) (g' : Game)
    (h : g.pickCardFromPileAction = Except.error (m, g')) : g' = g := by
  cases hp : g.pileOfCards with
  | nil =>
    simp [Game.pickCardFromPileAction, hp, throwG] at h
    exact h.2.symm
  | cons c rest => simp [Game.pickCardFromPileAction, hp] at h

lemma pickBurned_err (g : Game) (m : String) (g' : Game)
    (h : g.pickCardFromBurnedAction = Except.error (m, g')) : g' = g := by
  cases hp : g.burnedCards with
  | nil =>
    simp [Game.pickCardFromBurnedAction, hp, throwG] at h
    exact h.2.symm
  | cons c rest => simp [Game.pickCardFromBurnedAction, hp] at h

lemma burnOne_err (g : Game) (u c : Option Nat) (m : String) (g' : Game)
    (h : g.burnOneHandCardAction u c = Except.error (m, g')) : g' = g := by
  unfold Game.burnOneHandCardAction at h
  repeat' split at h
  all_goals simp [throwG] at h
  all_goals exact h.2.symm

lemma burnOne_ok_state (g : Game) (u c : Option Nat) (g' : Game)
    (h : g.burnOneHandCardAction u c = Except.ok g') : g'.state = .EndRound := by
  unfold Game.burnOneHandCardAction at h
  repeat' split at h
  all_goals simp [throwG] at h
  all_goals rw [← h]

lemma useAbility_err (g : Game) (m : String) (g' : Game)
    (h : g.useAbilityAction = Except.error (m, g')) :
    g' = g ∨ ∃ c, g.pickedCard = some c ∧
      g' = { g with pickedCard := some c.markAsUsed } := by
  unfold Game.useAbilityAction at h
  cases hc : g.pickedCard with
  | none =>
    left
    simp [hc, throwG] at h
    exact h.2.symm
  | some c =>
    right
    simp only [hc] at h
    by_cases h1 : (c.ability == EXCHANGE_HAND_WITH_OTHER_ABILITY) = true
    · simp [h1] at h
    · by_cases h2 : (c.ability == SHOW_ONE_HAND_CARD_ABILITY) = true
      · simp [h1, h2] at h
      · by_cases h3 : (c.ability == SHOW_ONE_OTHER_HAND_CARD_ABILITY) = true
        · simp [h1, h2, h3] at h
        · by_cases h4 : (c.ability == NO_ABILITY) = true
          · simp [h1, h2, h3, h4] at h
          · simp [h1, h2, h3, h4, throwG] at h
            exact ⟨c, rfl, h.2.symm⟩

lemma exchangePick_err (g : Game) (u c : Option Nat) (m : String) (g' : Game)
    (h : g.exchangePickWithHandAction u c = Except.error (m, g')) : g' = g := by
  unfold Game.exchangePickWithHandAction at h
  cases hu : u.bind (mapGet g.userPlayer) with
  | none =>
    simp [hu, throwG] at h
    exact h.2.symm
  | some seat => simp [hu] at h

lemma exchangeOther_err (g : Game) (u c o oc : Option Nat) (m : String) (g' : Game)
    (h : g.exchangeHandWithOther u c o oc = Except.error (m, g')) : g' = g := by
  unfold Game.exchangeHandWithOther at h
  by_cases hv : g.isValidPlayer o = true
  · simp only [hv, if_true] at h
    cases hu : u.bind (mapGet g.userPlayer) with
    | none =>
      simp [hu, throwG] at h
      exact h.2.symm
    | some seat =>
      cases ho : o with
      | none =>
        simp [hu, ho, throwG] at h
        exact h.2.symm
      | some j =>
        simp only [hu, ho] at h
        by_cases hs : (seat == j) = true <;> simp [hs, throwG] at h
        exact h.2.symm
  · simp only [Bool.not_eq_true] at hv
    simp [hv, throwG] at h
    exact h.2.symm

lemma showOne_err (g : Game) (u c : Option Nat) (m : String) (g' : Game)
    (h : g.showOneHandCardAction u c = Except.error (m, g')) : g' = g := by
  unfold Game.showOneHandCardAction at h
  cases hu : u.bind (mapGet g.userPlayer) with
  | none =>
    simp [hu, throwG] at h
    exact h.2.symm
  | some seat => simp [hu] at h

lemma showOther_err (g : Game) (u o oc : Option Nat) (m : String) (g' : Game)
    (h : g.showOneOtherHandCardAction u o oc = Except.error (m, g')) : g' = g := by
  unfold Game.showOneOtherHandCardAction at h
  by_cases hv : g.isValidPlayer o = true <;> simp [hv, throwG] at h
  exact h.2.symm

lemma validate_START_ROUND (g : Game) :
    validateUsingActionBased g .START_ROUND none = true := rfl

lemma startGame_err (g : Game) (m : String) (g' : Game)
    (h4 : g.isGameStarted = false → 4 * g.players.length ≤ g.deck.length)
    (h : g.startGameAction = Except.error (m, g')) : g' = g := by
  unfold Game.startGameAction at h
  by_cases hs : g.isGameStarted = true
  · simp [hs, throwG] at h
    exact h.2.symm
  · simp only [Bool.not_eq_true] at hs
    have hlen := h4 hs
    simp only [hs, Bool.false_eq_true, if_false, validate_START_ROUND, if_true] at h
    rw [startRound_ok _ (by
      simpa [Game.shuffleDeck, Game.selectFirstTurnAction, shuffleWith_length] using hlen)] at h
    simp at h

lemma pickPile_leader (g : Game) : resLeader g.pickCardFromPileAction = g.leader := by
  unfold Game.pickCardFromPileAction
  split <;> rfl

lemma pickBurned_leader (g : Game) : resLeader g.pickCardFromBurnedAction = g.leader := by
  unfold Game.pickCardFromBurnedAction
  split <;> rfl

lemma burnOne_leader (g : Game) (u c : Option Nat) :
    resLeader (g.burnOneHandCardAction u c) = g.leader := by
  unfold Game.burnOneHandCardAction
  repeat' split
  all_goals rfl

lemma useAbility_leader (g : Game) : resLeader g.useAbilityAction = g.leader := by
  unfold Game.useAbilityAction
  repeat' split
  all_goals rfl

lemma exchangePick_leader (g : Game) (u c : Option Nat) :
    resLeader (g.exchangePickWithHandAction u c) = g.leader := by
  unfold Game.exchangePickWithHandAction
  repeat' split
  all_goals rfl

lemma exchangeOther_leader (g : Game) (u c o oc : Option Nat) :
    resLeader (g.exchangeHandWithOther u c o oc) = g.leader := by
  unfold Game.exchangeHandWithOther
  repeat' split
  all_goals rfl

lemma showOne_leader (g : Game) (u c : Option Nat) :
    resLeader (g.showOneHandCardAction u c) = g.leader := by
  unfold Game.showOneHandCardAction
  repeat' split
  all_goals rfl

lemma showOther_leader (g : Game) (u o oc : Option Nat) :
    resLeader (g.showOneOtherHandCardAction u o oc) = g.leader := by
  unfold Game.showOneOtherHandCardAction
  repeat' split
  all_goals rfl

lemma distribute_leader (g : Game) : resLeader g.distributeCardsAction = g.leader := by
  unfold Game.distributeCardsAction
  dsimp only
  split <;> rfl

lemma startRound_leader (g : Game) : resLeader g.startRoundAction = g.leader := by
  unfold Game.startRoundAction
  have hd := distribute_leader g
  cases hdc : g.distributeCardsAction with
  | error e =>
    obtain ⟨em, eg⟩ := e
    rw [hdc] at hd
    simpa [resLeader] using hd
  | ok g1 =>
    rw [hdc] at hd
    simpa [resLeader, Game.showTwoHandCardsAction] using hd

lemma startGame_leader (g : Game) : resLeader g.startGameAction = g.leader := by
  unfold Game.startGameAction
  dsimp only
  split
  · rfl
  · split
    · rw [startRound_leader]
      rfl
    · rfl

lemma stateAction_leader (g : Game) (a : Action) (p : UserActionPayload) :
    resLeader (stateAction g a p) = g.leader := by
  unfold stateAction
  repeat' split
  all_goals first
    | rfl
    | exact startGame_leader g
    | exact startRound_leader g
    | exact pickPile_leader g
    | exact pickBurned_leader g
    | exact useAbility_leader g
    | exact burnOne_leader g _ _
    | exact exchangePick_leader g _ _
    | exact exchangeOther_leader g _ _ _ _
    | exact showOne_leader g _ _
    | exact showOther_leader g _ _ _

lemma join_leader_of_ne (g : Game) (u pid : Option Nat) (hne : g.userPlayer ≠ []) :
    resLeader (g.joinAsPlayerAction u pid) = g.leader := by
  unfold Game.joinAsPlayerAction
  have hn : (g.numberOfPlayers == 0) = false := by
    cases hm : g.userPlayer with
    | nil => exact absurd hm hne
    | cons x t => simp [Game.numberOfPlayers, hm]
  repeat' split
  all_goals simp_all [resLeader, throwG]

lemma doAction_leader (g : Game) (a : Action) (p : UserActionPayload)
    (hne : g.userPlayer ≠ []) : resLeader (g.doAction a p) = g.leader := by
  unfold Game.doAction
  split
  · split
    · exact join_leader_of_ne g _ _ hne
    · exact stateAction_leader g _ _
  · rfl

lemma throwG_err (m m' : String) (g g' : Game)
    (h : throwG m g = Except.error (m', g')) : g' = g := by
  simp [throwG] at h
  exact h.2.symm

lemma stateAction_err (g : Game) (a : Action) (p : UserActionPayload) (m : String) (g' : Game)
    (hdeck : (g.state = .BeginOfGame ∨ g.state = .RoundStart) →
      4 * g.players.length ≤ g.deck.length)
    (h : stateAction g a p = Except.error (m, g')) :
    g' = g ∨ (a = .USE_ABILITY ∧ ∃ c, g.pickedCard = some c ∧
      g' = { g with pickedCard := some c.markAsUsed }) := by
  unfold stateAction at h
  split at h
  · rename_i hst
    split at h
    · exact Or.inl (startGame_err g m g' (fun _ => hdeck (Or.inl hst)) h)
    · exact Or.inl (throwG_err _ _ _ _ h)
  · rename_i hst
    split at h
    · rw [startRound_ok g (hdeck (Or.inr hst))] at h
      simp at h
    · exact Or.inl (throwG_err _ _ _ _ h)
  · split at h
    · exact Or.inl (pickPile_err g m g' h)
    · exact Or.inl (pickBurned_err g m g' h)
    · exact Or.inl (throwG_err _ _ _ _ h)
  · split at h
    · rcases useAbility_err g m g' h with h1 | ⟨c, hc, hg⟩
      · exact Or.inl h1
      · exact Or.inr ⟨rfl, c, hc, hg⟩
    · exact Or.inl (throwG_err _ _ _ _ h)
  · split at h
    · rcases useAbility_err g m g' h with h1 | ⟨c, hc, hg⟩
      · exact Or.inl h1
      · exact Or.inr ⟨rfl, c, hc, hg⟩
    · exact Or.inl (throwG_err _ _ _ _ h)
  · split at h
    · exact Or.inl (burnOne_err g _ _ m g' h)
    · exact Or.inl (throwG_err _ _ _ _ h)
  · split at h
    · simp at h
    · exact Or.inl (throwG_err _ _ _ _ h)
  · split at h
    · exact Or.inl (exchangeOther_err g _ _ _ _ m g' h)
    · exact Or.inl (throwG_err _ _ _ _ h)
  · split at h
    · exact Or.inl (showOne_err g _ _ m g' h)
    · exact Or.inl (throwG_err _ _ _ _ h)
  · split at h
    · exact Or.inl (showOther_err g _ _ _ m g' h)
    · exact Or.inl (throwG_err _ _ _ _ h)
  · exact Or.inl (throwG_err _ _ _ _ h)

lemma doAction_invalid (g : Game) (a : Action) (p : UserActionPayload)
    (hv : validateUsingActionBased g a p.userId = false) :
    g.doAction a p = Except.error ("InvalidAction", g) := by
  unfold Game.doAction
  simp [hv, throwG]

lemma join_err (g : Game) (u pid : Option Nat) (m : String) (g' : Game)
    (h : g.joinAsPlayerAction u pid = Except.error (m, g')) : g' = g := by
  unfold Game.joinAsPlayerAction at h
  by_cases h1 : g.isJoinedAsPlayer u = true
  · simp [h1, throwG] at h
    exact h.2.symm
  · by_cases h2 : g.isValidPlayer pid = true
    · by_cases h3 : g.isFull = true
      · simp [h1, h2, h3, throwG] at h
        exact h.2.symm
      · simp only [h1, h2, h3] at h
        cases u with
        | none =>
          simp [throwG] at h
          exact h.2.symm
        | some uu =>
          cases pid with
          | none =>
            simp [throwG] at h
            exact h.2.symm
          | some pp => simp [throwG] at h
    · simp [h1, h2, throwG] at h
      exact h.2.symm

/- Concrete fixtures used by the counterexamples and witnesses. -/

/-- Fixed cards: cardA and cardB share rank 5; cardC has rank 7. -/
def cardA : Card := ⟨100, 0, 5, 0, false⟩

def cardB : Card := ⟨101, 1, 5, 0, false⟩

def cardC : Card := ⟨102, 2, 7, 0, false⟩

/-- A picked card whose ability tag 7 matches no member of the ability
enum. -/
def c2Bad : Card := ⟨0, 0, 0, 7, false⟩

/-- A game sitting in PilePicked with the bad-ability card picked. -/
def c2Game : Game :=
  { fresh3 with state := .PilePicked, isGameStarted := true,
                pickedCard := some c2Bad, userPlayer := [(1, 0)], leader := some 1 }

/-- The action script of the conservation failing input: three joins, a
leader start, then one accepted pick from the draw pile. -/
def c1Script : List (Action × UserActionPayload) :=
  [(.JOIN_AS_PLAYER, pJoin 1 0), (.JOIN_AS_PLAYER, pJoin 2 1), (.JOIN_AS_PLAYER, pJoin 3 2),
   (.START_GAME, pUser 1), (.PICK_CARD_FROM_PILE, pUser 1)]

/-- A game with a single-card pile, for the pick witnesses. -/
def pileGame : Game := { fresh3 with pileOfCards := [cardA] }

/-- A game whose burn pile and hand are set up for both burn branches. -/
def c5Equal : Game :=
  { fresh3 with burnedCards := [cardB], players := [⟨[cardA, cardC]⟩, ⟨[]⟩, ⟨[]⟩],
                userPlayer := [(1, 0)] }

/-- A game in the ability-resolution phase with user 1 seated at seat 0. -/
def exGame : Game := { fresh3 with userPlayer := [(1, 0)], state := .ExchangeHandWithOther }

/-- A game in the Burn phase with user 1 seated at the turn seat. -/
def c9g : Game :=
  { fresh3 with state := .Burn, burnedCards := [cardB],
                players := [⟨[cardA, cardC]⟩, ⟨[]⟩, ⟨[]⟩], userPlayer := [(1, 0)], turn := 0 }

/-- Claim C1: card conservation is asserted for the union of deck, draw
pile, burn pile and all hands at every reachable state; the code violates
it.  On the failing input (three joins, a leader start, one accepted
PICK_CARD_FROM_PILE by the turn user) the fresh game's containers carry 52
cards but the reached state's containers carry only 51: the picked card sits
in `pickedCard`, which no exchange handler ever deposits into a hand (the
swaps are local-variable no-ops) and which endOfTurn nulls, so the card is
lost to the claimed union. -/
theorem C1_card_conservation_violated :
    totalContainerCards fresh3 = 52 ∧
    resultHolds (runActions fresh3 c1Script)
      (fun g => (totalContainerCards g == 51) && g.pickedCard.isSome &&
        (g.state == GState.PilePicked)) = true :=
  ⟨by decide, by decide⟩

/-- Claim C2, counterexample: useAbilityAction with an unrecognized ability
tag on the picked card does NOT throw without mutating — it marks the picked
card used first, and that mutation persists in the thrown state, which
therefore differs from the pre-call state. -/
theorem C2_counterexample :
    c2Game.useAbilityAction =
      Except.error ("Unknown ability", { c2Game with pickedCard := some c2Bad.markAsUsed }) ∧
    { c2Game with pickedCard := some c2Bad.markAsUsed } ≠ c2Game :=
  ⟨by rfl, by decide⟩

/-- Claim C2 as amended: for every action processed through doAction, a call
that ends in an error leaves the game exactly as it was, EXCEPT that
USE_ABILITY on a picked card with an unrecognized ability tag first sets the
card's used flag and that one mutation persists in the thrown state.  The
deck-size hypothesis rules out an exhausted deal from the two deal-entry
phases only (a fresh 52-card deck always satisfies it). -/
theorem C2_amended_atomicity (g : Game) (a : Action) (p : UserActionPayload)
    (m : String) (g' : Game)
    (hdeck : (g.state = .BeginOfGame ∨ g.state = .RoundStart) →
      4 * g.players.length ≤ g.deck.length)
    (h : g.doAction a p = Except.error (m, g')) :
    g' = g ∨ (a = .USE_ABILITY ∧ ∃ c, g.pickedCard = some c ∧
      g' = { g with pickedCard := some c.markAsUsed }) := by
  unfold Game.doAction at h
  split at h
  · split at h
    · exact Or.inl (join_err g _ _ m g' h)
    · exact stateAction_err g a p m g' hdeck h
  · exact Or.inl (throwG_err _ _ _ _ h)

theorem C2_amended_atomicity_witness :
    c2Game.doAction .USE_ABILITY (pUser 1) =
      Except.error ("Unknown ability", { c2Game with pickedCard := some c2Bad.markAsUsed }) ∧
    ({ c2Game with pickedCard := some c2Bad.markAsUsed } = c2Game ∨
      (Action.USE_ABILITY = .USE_ABILITY ∧ ∃ c, c2Game.pickedCard = some c ∧
        { c2Game with pickedCard := some c2Bad.markAsUsed } =
          { c2Game with pickedCard := some c.markAsUsed })) :=
  ⟨by rfl,
   C2_amended_atomicity c2Game .USE_ABILITY (pUser 1) "Unknown ability"
     { c2Game with pickedCard := some c2Bad.markAsUsed } (by decide) (by rfl)⟩

/-- Claim C3: pickCardFromPileAction and pickCardFromBurnedAction move the
top card of their pile into pickedCard and transition to PilePicked resp.
BurnedPicked; on an empty pile they fail and the thrown state is exactly the
input state (no field changed). -/
theorem C3_pick_empty_and_success (g : Game) :
    (g.pileOfCards = [] →
      g.pickCardFromPileAction = Except.error ("Cannot pick from empty stack", g)) ∧
    (∀ c rest, g.pileOfCards = c :: rest →
      g.pickCardFromPileAction =
        Except.ok { g with pickedCard := some c, pileOfCards := rest, state := .PilePicked }) ∧
    (g.burnedCards = [] →
      g.pickCardFromBurnedAction = Except.error ("Cannot pick from empty stack", g)) ∧
    (∀ c rest, g.burnedCards = c :: rest →
      g.pickCardFromBurnedAction =
        Except.ok { g with pickedCard := some c, burnedCards := rest,
                           state := .BurnedPicked }) := by
  refine ⟨?_, ?_, ?_, ?_⟩
  · intro hp
    simp [Game.pickCardFromPileAction, hp, throwG]
  · intro c rest hp
    simp [Game.pickCardFromPileAction, hp]
  · intro hb
    simp [Game.pickCardFromBurnedAction, hb, throwG]
  · intro c rest hb
    simp [Game.pickCardFromBurnedAction, hb]

theorem C3_witness :
    fresh3.pickCardFromBurnedAction = Except.error ("Cannot pick from empty stack", fresh3) ∧
    pileGame.pickCardFromPileAction =
      Except.ok { pileGame with pickedCard := some cardA, pileOfCards := [],
                                state := .PilePicked } :=
  ⟨(C3_pick_empty_and_success fresh3).2.2.1 rfl,
   (C3_pick_empty_and_success pileGame).2.1 cardA [] rfl⟩

/-- Claim C4: a turn-based action whose payload user is not the owner of
the seat at the current turn index (isUserTurn false), and a leader-based
action whose payload user is not the stored leader (isLeaderUser false), are
rejected by doAction with an error carrying the unchanged game state. -/
theorem C4_authorization_no_mutation (g : Game) (a : Action) (p : UserActionPayload)
    (h : (a ∈ USER_TURN_BASED_ACTION ∧ g.isUserTurn p.userId = false) ∨
         (a ∈ LEADER_BASED_ACTIONS ∧ g.isLeaderUser p.userId = false)) :
    g.doAction a p = Except.error ("InvalidAction", g) := by
  rcases h with ⟨hmem, hf⟩ | ⟨hmem, hf⟩
  · simp only [USER_TURN_BASED_ACTION, List.mem_cons, List.not_mem_nil, or_false] at hmem
    rcases hmem with rfl | rfl | rfl | rfl | rfl | rfl | rfl <;>
      exact doAction_invalid _ _ _ hf
  · simp only [LEADER_BASED_ACTIONS, List.mem_cons, List.not_mem_nil, or_false] at hmem
    rcases hmem with rfl | rfl <;>
      exact doAction_invalid _ _ _ hf

theorem C4_witness :
    fresh3.doAction .PASS (pUser 9) = Except.error ("InvalidAction", fresh3) ∧
    fresh3.doAction .START_GAME (pUser 9) = Except.error ("InvalidAction", fresh3) :=
  ⟨C4_authorization_no_mutation fresh3 .PASS (pUser 9) (Or.inl ⟨by decide, by decide⟩),
   C4_authorization_no_mutation fresh3 .START_GAME (pUser 9) (Or.inr ⟨by decide, by decide⟩)⟩

/-- Claim C5: burnOneHandCardAction requires a non-empty burn pile (else it
fails with the state unchanged); with the acting player bound to a seat and
the named card in that hand, equal rank moves the hand card onto the burn
pile (it leaves the hand), unequal rank moves the burn-pile top card into
the hand while the named card stays; both success branches end in
EndRound and touch no other field. -/
theorem C5_burn_legality (g : Game) (u cid : Nat) :
    (g.burnedCards = [] → ∀ uo co, g.burnOneHandCardAction uo co =
        Except.error ("Burned cards stack is empty", g)) ∧
    (∀ top rest seat player card,
      g.burnedCards = top :: rest →
      mapGet g.userPlayer u = some seat →
      g.players.get? seat = some player →
      player.getCard (some cid) = some card →
      ((card.rank = top.rank →
        g.burnOneHandCardAction (some u) (some cid) =
          Except.ok { g with
            players := g.players.set seat { player with hand := player.hand.erase card },
            burnedCards := card :: top :: rest,
            state := .EndRound }) ∧
       (card.rank ≠ top.rank →
        g.burnOneHandCardAction (some u) (some cid) =
          Except.ok { g with
            players := g.players.set seat { player with hand := top :: player.hand },
            burnedCards := rest,
            state := .EndRound }))) := by
  constructor
  · intro hb uo co
    simp [Game.burnOneHandCardAction, hb, throwG]
  · intro top rest seat player card hb hu hp hc
    constructor
    · intro hr
      simp only [Game.burnOneHandCardAction, hb, Option.bind, hu, hp, hc,
        Card.equalsRank, hr, beq_self_eq_true, if_true]
    · intro hr
      have hrb : (card.rank == top.rank) = false := by
        simpa using hr
      simp only [Game.burnOneHandCardAction, hb, Option.bind, hu, hp, hc,
        Card.equalsRank, hrb, Bool.false_eq_true, if_false]

theorem C5_witness :
    c5Equal.burnOneHandCardAction (some 1) (some 100) =
      Except.ok { c5Equal with
        players := c5Equal.players.set 0 ⟨[cardC]⟩,
        burnedCards := [cardA, cardB],
        state := .EndRound } ∧
    c5Equal.burnOneHandCardAction (some 1) (some 102) =
      Except.ok { c5Equal with
        players := c5Equal.players.set 0 ⟨[cardB, cardA, cardC]⟩,
        burnedCards := [],
        state := .EndRound } ∧
    fresh3.burnOneHandCardAction (some 1) (some 100) =
      Except.error ("Burned cards stack is empty", fresh3) :=
  ⟨((C5_burn_legality c5Equal 1 100).2 cardB [] 0 ⟨[cardA, cardC]⟩ cardA
      rfl rfl rfl rfl).1 rfl,
   ((C5_burn_legality c5Equal 1 102).2 cardB [] 0 ⟨[cardA, cardC]⟩ cardC
      rfl rfl rfl rfl).2 (by decide),
   (C5_burn_legality fresh3 1 100).1 rfl (some 1) (some 100)⟩

/-- Claim C6: once their validity checks pass, exchangePickWithHandAction
and exchangeHandWithOther change no hand, no pickedCard and no card
ownership — the swap is performed on local variable bindings — so the only
observable effect is the phase transition to Burn. -/
theorem C6_exchange_frame_noop (g : Game) (u seat jj : Nat) (cid ocid : Option Nat)
    (hu : mapGet g.userPlayer u = some seat) :
    g.exchangePickWithHandAction (some u) cid = Except.ok { g with state := .Burn } ∧
    (jj < g.players.length → seat ≠ jj →
      g.exchangeHandWithOther (some u) cid (some jj) ocid =
        Except.ok { g with state := .Burn }) := by
  constructor
  · simp [Game.exchangePickWithHandAction, hu]
  · intro hj hne
    have hb : (seat == jj) = false := by simpa using hne
    simp [Game.exchangeHandWithOther, Game.isValidPlayer, hj, hu, hb]

theorem C6_witness :
    exGame.exchangePickWithHandAction (some 1) none =
      Except.ok { exGame with state := .Burn } ∧
    exGame.exchangeHandWithOther (some 1) none (some 1) none =
      Except.ok { exGame with state := .Burn } :=
  ⟨(C6_exchange_frame_noop exGame 1 0 1 none none rfl).1,
   (C6_exchange_frame_noop exGame 1 0 1 none none rfl).2 (by decide) (by decide)⟩

/-- Claim C7, counterexample: game.ts's isValidPlayer checks only the index
range, never occupancy, so a second user joining the seat already occupied
by the first user is ACCEPTED: after user 1 joins seat 0, user 2's join of
seat 0 succeeds and both users end up bound to seat 0. -/
theorem C7_counterexample :
    resultHolds (runActions fresh3 [(.JOIN_AS_PLAYER, pJoin 1 0), (.JOIN_AS_PLAYER, pJoin 2 0)])
      (fun g => (mapGet g.userPlayer 1 == some 0) && (mapGet g.userPlayer 2 == some 0)) =
      true := by decide

/-- Claim C7 as amended (occupied seats are NOT rejected; everything else of
the claim holds): a join by an already-seated user, with an out-of-range
seat index, or into a full game is rejected with the state unchanged; the
first successful join records the actor as leader; and once anyone is
seated, no accepted doAction changes the leader. -/
theorem C7_amended_join (g : Game) :
    (∀ uu pid, g.isJoinedAsPlayer (some uu) = true →
        g.doAction .JOIN_AS_PLAYER ⟨some uu, pid, none, none, none⟩ =
          Except.error ("Player already joined", g)) ∧
    (∀ uu pid, g.isJoinedAsPlayer (some uu) = false → g.isValidPlayer pid = false →
        g.doAction .JOIN_AS_PLAYER ⟨some uu, pid, none, none, none⟩ =
          Except.error ("Invalid position or already taken", g)) ∧
    (∀ uu pid, g.isJoinedAsPlayer (some uu) = false → g.isValidPlayer pid = true →
        g.isFull = true →
        g.doAction .JOIN_AS_PLAYER ⟨some uu, pid, none, none, none⟩ =
          Except.error ("The game is already full join another game", g)) ∧
    (∀ uu i, g.userPlayer = [] → i < g.players.length → g.isFull = false →
        g.doAction .JOIN_AS_PLAYER ⟨some uu, some i, none, none, none⟩ =
          Except.ok { g with leader := some uu, userPlayer := [(uu, i)] }) ∧
    (∀ a p g', g.userPlayer ≠ [] → g.doAction a p = Except.ok g' →
        g'.leader = g.leader) := by
  refine ⟨?_, ?_, ?_, ?_, ?_⟩
  · intro uu pid hj
    simp [Game.doAction, Game.joinAsPlayerAction, hj, throwG, validateUsingActionBased,
      actionIn]
  · intro uu pid hj hv
    simp [Game.doAction, Game.joinAsPlayerAction, hj, hv, throwG, validateUsingActionBased,
      actionIn]
  · intro uu pid hj hv hfull
    simp [Game.doAction, Game.joinAsPlayerAction, hj, hv, hfull, throwG,
      validateUsingActionBased, actionIn]
  · intro uu i hup hi hfull
    simp [Game.doAction, Game.joinAsPlayerAction, Game.isJoinedAsPlayer, hup, mapGet,
      Game.isValidPlayer, hi, hfull, Game.numberOfPlayers, mapSet,
      validateUsingActionBased, actionIn]
  · intro a p g' hne hok
    have hl := doAction_leader g a p hne
    rw [hok] at hl
    simpa [resLeader] using hl

theorem C7_witness :
    fresh3.doAction .JOIN_AS_PLAYER ⟨some 5, some 1, none, none, none⟩ =
      Except.ok { fresh3 with leader := some 5, userPlayer := [(5, 1)] } ∧
    fresh3.doAction .JOIN_AS_PLAYER ⟨some 5, some 9, none, none, none⟩ =
      Except.error ("Invalid position or already taken", fresh3) :=
  ⟨(C7_amended_join fresh3).2.2.2.1 5 1 rfl (by decide) (by decide),
   (C7_amended_join fresh3).2.1 5 (some 9) (by decide) (by decide)⟩

/-- Claim C8, counterexample: the deal loops over the whole seat array, not
over seated players.  In a 3-seat game where only user 1 has joined seat 0,
START_GAME deals 4 cards to EVERY seat (hands [4,4,4]) and the draw pile
receives 40 cards — the claim's deal (4 cards to the one seated player only)
would leave 48. -/
theorem C8_counterexample :
    resultHolds (runActions fresh3 [(.JOIN_AS_PLAYER, pJoin 1 0), (.START_GAME, pUser 1)])
      (fun g => ((g.players.map (fun q => q.hand.length)) == [4, 4, 4]) &&
        (g.pileOfCards.length == 40)) = true := by decide

/-- Claim C8 as amended: the start-of-round deal gives exactly 4 cards to
every SEAT of the seat array (occupied or not), in seat order — seat i
receives deck positions 4i..4i+3 — then every remaining deck card moves to
the draw pile, the deck is left empty, and the phase becomes PickBurn. -/
theorem C8_amended_distribution (g : Game) (h : 4 * g.players.length ≤ g.deck.length) :
    g.startRoundAction = Except.ok
      { g with players := dealtSeats g.players g.deck, deck := [],
               pileOfCards := (g.deck.drop (4 * g.players.length)).reverse ++ g.pileOfCards,
               state := .PickBurn } ∧
    ∀ i pi, g.players.get? i = some pi →
      (dealtSeats g.players g.deck).get? i =
        some ⟨((g.deck.drop (4 * i)).take 4).reverse ++ pi.hand⟩ :=
  ⟨startRound_ok g h, fun i pi hp => dealtSeats_get g.players g.deck i pi hp⟩

theorem C8_witness :
    fresh3.startRoundAction = Except.ok
      { fresh3 with players := dealtSeats fresh3.players fresh3.deck, deck := [],
                    pileOfCards := (fresh3.deck.drop (4 * fresh3.players.length)).reverse ++
                      fresh3.pileOfCards,
                    state := .PickBurn } ∧
    (dealtSeats fresh3.players fresh3.deck).get? 1 =
      some ⟨((fresh3.deck.drop 4).take 4).reverse⟩ :=
  ⟨(C8_amended_distribution fresh3 (by decide)).1,
   by
     have := (C8_amended_distribution fresh3 (by decide)).2 1 ⟨[]⟩ rfl
     simpa using this⟩

/-- Claim C9: in the Burn phase, BURN_CARD from the turn user is delegated
to the burn step (burnOneHandCardAction on the payload's user and card),
whose every successful outcome is the EndRound phase; and every other action
that the phase would receive (everything except the globally handled
JOIN_AS_PLAYER) is rejected with an error carrying the unchanged state —
whether it fails the validator or the phase gate. -/
theorem C9_burn_phase_gating (g : Game) (p : UserActionPayload) (hs : g.state = .Burn) :
    (g.isUserTurn p.userId = true →
      g.doAction .BURN_CARD p = g.burnOneHandCardAction p.userId p.cardId ∧
      ∀ g', g.burnOneHandCardAction p.userId p.cardId = Except.ok g' →
        g'.state = .EndRound) ∧
    (∀ a, a ≠ .BURN_CARD → a ≠ .JOIN_AS_PLAYER →
      ∃ msg, g.doAction a p = Except.error (msg, g)) := by
  constructor
  · intro ht
    have hv : validateUsingActionBased g .BURN_CARD p.userId = true := ht
    constructor
    · simp [Game.doAction, hv, stateAction, hs]
    · exact fun g' h => burnOne_ok_state g _ _ g' h
  · intro a ha hj
    by_cases hv : validateUsingActionBased g a p.userId = true
    · cases a
      all_goals first
        | exact absurd rfl ha
        | exact absurd rfl hj
        | (refine ⟨"Action is not allowed in current state", ?_⟩
           simp [Game.doAction, hv, stateAction, hs, throwG])
    · exact ⟨"InvalidAction", doAction_invalid g a p (by simpa using hv)⟩

theorem C9_witness :
    c9g.doAction .BURN_CARD (pCard 1 100) = c9g.burnOneHandCardAction (some 1) (some 100) ∧
    (∃ msg, c9g.doAction .PASS (pCard 1 100) = Except.error (msg, c9g)) :=
  ⟨((C9_burn_phase_gating c9g (pCard 1 100) rfl).1 (by decide)).1,
   (C9_burn_phase_gating c9g (pCard 1 100) rfl).2 .PASS (by decide) (by decide)⟩

/-- Claim C10: BURN_ONE_HAND_CARD belongs to none of the validator's
buckets (leader, user, turn) and is not an internal action either, so for
every game state and every payload doAction rejects it in the validator,
before any phase handler runs, with the state unchanged. -/
theorem C10_burn_one_hand_card_always_rejected (g : Game) (p : UserActionPayload) :
    g.doAction .BURN_ONE_HAND_CARD p = Except.error ("InvalidAction", g) := by
  obtain ⟨u, b, c, d, e⟩ := p
  apply doAction_invalid
  cases u <;> rfl

end Cards
